import Mathlib

/-!
Shallow embedding of `src/cyc/datasets.py` (class `ProteinDataset`).

The embedding models the dataframe as a list of rows carrying the sequence
column and the label column (raw label values are embedded as natural
numbers; `numpy.unique` and pandas `groupby` order them by their ascending
order, which the embedding mirrors).  Tables passed to the constructor are
modelled with the sequence column present, which is the case in every
construction the specification describes (`from_fastx` always builds the
fixed `SEQS` column); the label-column argument of the constructor is
modelled by a Boolean flag, and when the flag is set the column is assumed
to be present in the table.  Random draws of `DataFrame.sample(n,
replace=True)` are modelled by an arbitrary oracle `pick` giving, for each
group and draw number, the position drawn, so theorems quantifying over
`pick` hold for every possible random outcome.  Fallible construction and
item access return `Except String`, with the error string naming the Python
exception raised at the corresponding program point.
-/

namespace CycDataset

/-- One row of the loaded dataframe: the protein sequence column and the
raw label column (raw label values embedded as naturals). -/
structure Row where
  seq : String
  label : Nat
deriving DecidableEq

/-- A Python dict from raw label values to ids (or the reverse), modelled
as an association list in insertion order. -/
abbrev LabelMap := List (Nat × Nat)

/-- The state of a fully constructed `ProteinDataset`: `self.seqs`,
`self.labels` (present only when a label column was given),
`self.label_dict`, `self.id2label` and `self.return_seqs`. -/
structure Dataset where
  seqs : List String
  labels : Option (List Nat)
  labelDict : Option LabelMap
  id2label : LabelMap
  return_seqs : Bool
deriving DecidableEq

/-- The structured sample returned by `__getitem__`: the tokenizer output
plus the optional `label` and `sequence` fields. -/
structure Sample where
  encoding : List Nat
  label : Option Nat
  sequence : Option String
deriving DecidableEq

/-- One record of a FASTA/FASTQ file as produced by `SeqIO.parse`. -/
structure FastxRecord where
  id : String
  seq : String
deriving DecidableEq

/-- Lines 43-57: keep only the rows whose sequence has length at most 1024
(the temporary `seq_length` column and the index reset do not change the
retained rows). -/
def filteredRows (rows : List Row) : List Row :=
  rows.filter (fun r => r.seq.length ≤ 1024)

/-- `numpy.unique` / the sorted group keys of `DataFrame.groupby`: the
distinct values in ascending order. -/
def sortedDistinct (l : List Nat) : List Nat :=
  List.insertionSort (fun a b => a ≤ b) l.dedup

/-- The number of rows carrying label `l`: the size of the `groupby` group
keyed by `l`. -/
def countLabel (l : Nat) (rows : List Row) : Nat :=
  (rows.filter (fun r => r.label == l)).length

/-- `data.groupby(label_column).size()`: the group sizes, keyed by the
distinct labels in ascending order. -/
def groupSizes (rows : List Row) : List Nat :=
  (sortedDistinct (rows.map (fun r => r.label))).map (fun l => countLabel l rows)

/-- `int(values.median())`: the floor of the median of the values (pandas
takes the middle element of the sorted values, or the mean of the two
middle elements when their number is even, and `int` truncates). -/
def medianInt (l : List Nat) : Nat :=
  let s := List.insertionSort (fun a b => a ≤ b) l
  if s.length % 2 = 1 then s.getD (s.length / 2) 0
  else (s.getD (s.length / 2 - 1) 0 + s.getD (s.length / 2) 0) / 2

/-- Line 63: `int(data.groupby(label_column).size().median())`. -/
def autoMedian (rows : List Row) : Nat := medianInt (groupSizes rows)

/-- `.sample(n=n, replace=True)` on one group `g`: `n` independent draws,
draw `i` taking the row at position `pick i % g.length` (the oracle `pick`
stands for the random number generator; with replacement, every position
can be drawn again). -/
def sampleGroup (pick : Nat → Nat) (n : Nat) (g : List Row) : List Row :=
  (List.range n).map (fun i => g.getD (pick i % g.length) ⟨"", 0⟩)

/-- Sampling of every group, groups visited in ascending key order as
pandas does, group number `i` feeding its own slice of the oracle. -/
def sampleGroups (pick : Nat → Nat → Nat) (i : Nat) (n : Nat) (rows : List Row) :
    List Nat → List Row
  | [] => []
  | l :: ls =>
      sampleGroup (pick i) n (rows.filter (fun r => r.label == l)) ++
        sampleGroups pick (i + 1) n rows ls

/-- `data.groupby(label_column).sample(n=n, replace=True)`: every distinct
label group resampled to exactly `n` rows. -/
def resample (pick : Nat → Nat → Nat) (n : Nat) (rows : List Row) : List Row :=
  sampleGroups pick 0 n rows (sortedDistinct (rows.map (fun r => r.label)))

/-- Lines 88-91: the loop `for i in range(len(label_list)):
label_dict[label_list[i]] = i`, generalised to a starting id `i`. -/
def assignIds : List Nat → Nat → LabelMap
  | [], _ => []
  | v :: vs, i => (v, i) :: assignIds vs (i + 1)

/-- The label map built from the observed labels: each distinct raw label
value, in the order produced by `numpy.unique` (ascending), gets the next
id starting from 0. -/
def buildLabelDict (labels : List Nat) : LabelMap :=
  assignIds (sortedDistinct labels) 0

/-- Line 94: `dict([(k, v) for v, k in self.label_dict.items()])`, the
inverse map obtained by swapping every pair. -/
def invertDict (m : LabelMap) : LabelMap :=
  m.map (fun p => (p.2, p.1))

/-- The dataframe after the length filter and the two optional resampling
steps (lines 42-78). -/
def pipelineData (rows : List Row) (nsamples : Int) (pick : Nat → Nat → Nat) :
    List Row :=
  let data0 := filteredRows rows
  let data1 := if nsamples = -1 then resample pick (autoMedian data0) data0 else data0
  if nsamples > 0 then resample pick nsamples.toNat data1 else data1

/-- Lines 82-93: the label map finally held in `self.label_dict` before
line 94 runs: the supplied mapper, or the freshly built map when a label
column is given and no mapper was supplied. -/
def effectiveMap (labelCol : Bool) (mapper : Option LabelMap) (data : List Row) :
    Option LabelMap :=
  if labelCol then
    match mapper with
    | none => some (buildLabelDict (data.map (fun r => r.label)))
    | some m => some m
  else mapper

/-- Error raised by `data.groupby(None)`. -/
def groupbyNoneErr : String := "TypeError: groupby received by=None"

/-- Error raised by `int(nan)` when the median is taken over no groups. -/
def medianNanErr : String := "ValueError: cannot convert float NaN to integer"

/-- Error raised at line 94 when `self.label_dict` is still `None`. -/
def noneItemsErr : String := "AttributeError: NoneType object has no attribute items"

/-- Error raised by a pandas Series lookup at a position outside its range
index. -/
def idxKeyErr : String := "KeyError: index not in range index"

/-- Error raised by subscripting `self.label_dict` when it is `None`. -/
def dictNoneErr : String := "TypeError: NoneType object is not subscriptable"

/-- Error raised by a dict lookup of a label missing from `label_dict`. -/
def labelKeyErr : String := "KeyError: label missing from label_dict"

/-- `ProteinDataset.__init__` (lines 22-101), with the tokenizer dropped
from the stored state (it is only consulted by `__getitem__`, which takes
it as an argument here).  The three error cases are mutually exclusive
and each fires exactly when the corresponding Python line raises: the
median step raises on `groupby(None)` or on `int(nan)` over an empty
table, the explicit step raises on `groupby(None)`, and line 94 raises
when `label_dict` is still `None`. -/
def initDataset (rows : List Row) (labelCol : Bool) (nsamples : Int)
    (return_seqs : Bool) (mapper : Option LabelMap) (pick : Nat → Nat → Nat) :
    Except String Dataset :=
  if nsamples = -1 ∧ labelCol = false then Except.error groupbyNoneErr
  else if nsamples = -1 ∧ filteredRows rows = [] then Except.error medianNanErr
  else if nsamples > 0 ∧ labelCol = false then Except.error groupbyNoneErr
  else
    match effectiveMap labelCol mapper (pipelineData rows nsamples pick) with
    | none => Except.error noneItemsErr
    | some m =>
        Except.ok ⟨(pipelineData rows nsamples pick).map (fun r => r.seq),
          if labelCol then
            some ((pipelineData rows nsamples pick).map (fun r => r.label))
          else none,
          some m, invertDict m, return_seqs⟩

/-- `ProteinDataset.from_fastx` (lines 107-139): the parsed records become
a two-column `IDs`/`SEQS` table (the `IDs` column is never read afterwards
because no label column is requested, so the embedded rows carry only the
sequence, with the unused label slot set to 0), and the constructor runs
with no label column, `nsamples = 0` and `return_seqs` forced on. -/
def from_fastx (records : List FastxRecord) (mapper : Option LabelMap) :
    Except String Dataset :=
  initDataset (records.map (fun r => ⟨r.seq, 0⟩)) false 0 true mapper (fun _ _ => 0)

/-- `__len__` (lines 141-142). -/
def lenDataset (d : Dataset) : Nat := d.seqs.length

/-- `__getitem__` (lines 144-156).  The stored sequences sit behind a
pandas range index `0..len-1`, so the Series lookup `self.seqs[idx]`
raises `KeyError` for every index outside that range (in particular for
`-1` and for `len`); it is evaluated before the tokenizer is called. -/
def getItem (d : Dataset) (tok : String → List Nat) (idx : Int) :
    Except String Sample :=
  if idx < 0 ∨ (d.seqs.length : Int) ≤ idx then Except.error idxKeyErr
  else
    let i := idx.toNat
    let s := d.seqs.getD i ""
    let enc := tok s
    let sq : Option String := if d.return_seqs then some s else none
    match d.labels with
    | none => Except.ok ⟨enc, none, sq⟩
    | some ls =>
        if i < ls.length then
          match d.labelDict with
          | none => Except.error dictNoneErr
          | some m =>
              match List.lookup (ls.getD i 0) m with
              | none => Except.error labelKeyErr
              | some v => Except.ok ⟨enc, some v, sq⟩
        else Except.error idxKeyErr

/-- `__getitem__` instrumented with the number of tokenizer invocations
made so far: the tokenizer is modelled as a family `tokAt`, invocation
number `k` returning `tokAt k s`, so caching an earlier encoding would
show up as a result not using the current invocation number.  An
out-of-bounds access raises before the tokenizer is reached and leaves
the count unchanged; an in-bounds access always performs exactly one new
invocation. -/
def getItemFresh (d : Dataset) (tokAt : Nat → String → List Nat) (idx : Int)
    (calls : Nat) : Except String Sample × Nat :=
  if idx < 0 ∨ (d.seqs.length : Int) ≤ idx then (Except.error idxKeyErr, calls)
  else (getItem d (tokAt calls) idx, calls + 1)

/-! ### Helper lemmas -/

theorem pipelineData_zero (rows : List Row) (pick : Nat → Nat → Nat) :
    pipelineData rows 0 pick = filteredRows rows := by
  norm_num [pipelineData]

theorem pipelineData_neg_one (rows : List Row) (pick : Nat → Nat → Nat) :
    pipelineData rows (-1) pick =
      resample pick (autoMedian (filteredRows rows)) (filteredRows rows) := by
  norm_num [pipelineData]

theorem pipelineData_pos (rows : List Row) (pick : Nat → Nat → Nat) (n : Int)
    (hn : 0 < n) :
    pipelineData rows n pick = resample pick n.toNat (filteredRows rows) := by
  have h1 : ¬(n = -1) := by omega
  simp [pipelineData, h1, hn]

theorem initDataset_ok_elim (rows : List Row) (labelCol : Bool) (nsamples : Int)
    (rs : Bool) (mapper : Option LabelMap) (pick : Nat → Nat → Nat) (d : Dataset)
    (h : initDataset rows labelCol nsamples rs mapper pick = Except.ok d) :
    ∃ m, effectiveMap labelCol mapper (pipelineData rows nsamples pick) = some m ∧
      d = ⟨(pipelineData rows nsamples pick).map (fun r => r.seq),
           if labelCol then
             some ((pipelineData rows nsamples pick).map (fun r => r.label))
           else none,
           some m, invertDict m, rs⟩ := by
  unfold initDataset at h
  split at h
  · simp at h
  split at h
  · simp at h
  split at h
  · simp at h
  rcases hm : effectiveMap labelCol mapper (pipelineData rows nsamples pick) with _ | m
  · rw [hm] at h
    simp at h
  · rw [hm] at h
    exact ⟨m, rfl, (Except.ok.inj h).symm⟩

theorem mem_sortedDistinct (l : List Nat) (x : Nat) :
    x ∈ sortedDistinct l ↔ x ∈ l := by
  unfold sortedDistinct
  rw [(List.perm_insertionSort _ _).mem_iff, List.mem_dedup]

theorem nodup_sortedDistinct (l : List Nat) : (sortedDistinct l).Nodup :=
  (List.perm_insertionSort _ _).nodup_iff.mpr l.nodup_dedup

theorem sorted_sortedDistinct (l : List Nat) :
    List.Sorted (fun a b => a ≤ b) (sortedDistinct l) :=
  List.sorted_insertionSort _ _

theorem length_sampleGroup (pick : Nat → Nat) (n : Nat) (g : List Row) :
    (sampleGroup pick n g).length = n := by
  simp [sampleGroup]

theorem mem_sampleGroup (pick : Nat → Nat) (n : Nat) (g : List Row) (hg : g ≠ [])
    (x : Row) (hx : x ∈ sampleGroup pick n g) : x ∈ g := by
  simp only [sampleGroup, List.mem_map, List.mem_range] at hx
  obtain ⟨i, _, rfl⟩ := hx
  have hlen : 0 < g.length := List.length_pos.mpr hg
  have hlt : pick i % g.length < g.length := Nat.mod_lt _ hlen
  rw [List.getD_eq_getElem _ _ hlt]
  exact List.getElem_mem hlt

theorem countLabel_append (l : Nat) (a b : List Row) :
    countLabel l (a ++ b) = countLabel l a + countLabel l b := by
  simp [countLabel, List.filter_append]

theorem countLabel_eq_length (l : Nat) (g : List Row) (h : ∀ r ∈ g, r.label = l) :
    countLabel l g = g.length := by
  unfold countLabel
  rw [List.filter_eq_self.mpr]
  intro a ha
  simpa using h a ha

theorem countLabel_eq_zero (l : Nat) (g : List Row) (h : ∀ r ∈ g, r.label ≠ l) :
    countLabel l g = 0 := by
  unfold countLabel
  rw [List.filter_eq_nil_iff.mpr]
  · rfl
  · intro a ha
    simpa using h a ha

theorem filter_label_ne_nil (rows : List Row) (l : Nat)
    (hl : l ∈ rows.map (fun r => r.label)) :
    rows.filter (fun r => r.label == l) ≠ [] := by
  simp only [List.mem_map] at hl
  obtain ⟨r, hr, hrl⟩ := hl
  intro hnil
  have hmem : r ∈ rows.filter (fun r => r.label == l) := by
    simp [List.mem_filter, hr, hrl]
  rw [hnil] at hmem
  simp at hmem

theorem countLabel_sampleGroups (pick : Nat → Nat → Nat) (n : Nat)
    (rows : List Row) (l : Nat) :
    ∀ (D : List Nat) (i : Nat), D.Nodup →
      (∀ x ∈ D, x ∈ rows.map (fun r => r.label)) →
      countLabel l (sampleGroups pick i n rows D) = if l ∈ D then n else 0 := by
  intro D
  induction D with
  | nil =>
    intro i _ _
    simp [sampleGroups, countLabel]
  | cons a D ih =>
    intro i hnd hmem
    have hna : a ∉ D := (List.nodup_cons.mp hnd).1
    have hndD : D.Nodup := (List.nodup_cons.mp hnd).2
    have hmemD : ∀ x ∈ D, x ∈ rows.map (fun r => r.label) :=
      fun x hx => hmem x (List.mem_cons_of_mem a hx)
    have hne : rows.filter (fun r => r.label == a) ≠ [] :=
      filter_label_ne_nil rows a (hmem a (List.mem_cons_self a D))
    have hall : ∀ r ∈ sampleGroup (pick i) n (rows.filter (fun r => r.label == a)),
        r.label = a := by
      intro r hr
      have hrg := mem_sampleGroup _ _ _ hne r hr
      have := (List.mem_filter.mp hrg).2
      simpa using this
    rw [sampleGroups, countLabel_append, ih (i + 1) hndD hmemD]
    by_cases hla : l = a
    · subst hla
      rw [countLabel_eq_length l _ hall]
      rw [length_sampleGroup]
      simp [hna]
    · rw [countLabel_eq_zero l _ (fun r hr => by rw [hall r hr]; exact fun hh => hla hh.symm)]
      simp [hla]

theorem countLabel_resample (pick : Nat → Nat → Nat) (n : Nat) (rows : List Row)
    (l : Nat) (hl : l ∈ rows.map (fun r => r.label)) :
    countLabel l (resample pick n rows) = n := by
  unfold resample
  rw [countLabel_sampleGroups pick n rows l _ 0 (nodup_sortedDistinct _)
      (fun x hx => (mem_sortedDistinct _ _).mp hx)]
  simp [(mem_sortedDistinct _ _).mpr hl]

theorem count_labels_map (rows : List Row) (l : Nat) :
    ((rows.map (fun r => r.label)).filter (fun x => x == l)).length =
      countLabel l rows := by
  simp only [countLabel]
  induction rows with
  | nil => rfl
  | cons r t ih =>
    simp only [List.map_cons, List.filter_cons]
    by_cases hc : r.label = l
    · simp [hc, ih]
    · simp [hc, ih]

theorem assignIds_map_fst :
    ∀ (L : List Nat) (i : Nat), (assignIds L i).map Prod.fst = L := by
  intro L
  induction L with
  | nil => intro i; rfl
  | cons a t ih => intro i; simp [assignIds, ih]

theorem assignIds_map_snd :
    ∀ (L : List Nat) (i : Nat),
      (assignIds L i).map Prod.snd = List.range' i L.length := by
  intro L
  induction L with
  | nil => intro i; rfl
  | cons a t ih => intro i; simp [assignIds, ih, List.range']

theorem assignIds_length (L : List Nat) (i : Nat) :
    (assignIds L i).length = L.length := by
  have h := assignIds_map_fst L i
  calc (assignIds L i).length = ((assignIds L i).map Prod.fst).length := by
        rw [List.length_map]
    _ = L.length := by rw [h]

theorem assignIds_roundtrip :
    ∀ (L : List Nat) (i : Nat), L.Nodup → ∀ v ∈ L,
      ∃ j, i ≤ j ∧ List.lookup v (assignIds L i) = some j ∧
        List.lookup j (invertDict (assignIds L i)) = some v := by
  intro L
  induction L with
  | nil =>
    intro i _ v hv
    simp at hv
  | cons a t ih =>
    intro i hnd v hv
    by_cases hva : v = a
    · subst hva
      refine ⟨i, Nat.le_refl i, ?_, ?_⟩
      · simp [assignIds, List.lookup]
      · simp [assignIds, invertDict, List.lookup]
    · have hvt : v ∈ t := by
        rcases List.mem_cons.mp hv with h1 | h1
        · exact absurd h1 hva
        · exact h1
      obtain ⟨j, hij, hlk, hinv⟩ := ih (i + 1) (List.nodup_cons.mp hnd).2 v hvt
      refine ⟨j, by omega, ?_, ?_⟩
      · have hb : (v == a) = false := by simp [hva]
        simpa [assignIds, List.lookup, hb] using hlk
      · have hji : ¬(j = i) := by omega
        have hb : (j == i) = false := by simp [hji]
        simpa [assignIds, invertDict, List.lookup, hb] using hinv

/-! ### Example data used by the witnesses -/

/-- A tokenizer usable in witnesses: encodes a string as its length. -/
def tokLen : String → List Nat := fun s => [s.length]

/-- A call-indexed tokenizer family that ignores the invocation number,
i.e. a deterministic tokenizer. -/
def tokLenAt : Nat → String → List Nat := fun _ s => [s.length]

/-- A one-row table with label column. -/
def rowsOne : List Row := [⟨"AA", 0⟩]

/-- The dataset built from `rowsOne` with a label column, no resampling
and no supplied mapper. -/
def exDataOne : Dataset := ⟨["AA"], some [0], some [(0, 0)], [(0, 0)], false⟩

/-- A row whose sequence is 2000 characters long. -/
def longRow : Row := ⟨String.mk (List.replicate 2000 'A'), 0⟩

/-- The two-row table of the length-filter example: sequence lengths 2000
and 10. -/
def rowsC2 : List Row := [longRow, ⟨"ABCDEFGHIJ", 1⟩]

/-- The dataset built from `rowsC2`: only the short row survives. -/
def exDataC2 : Dataset := ⟨["ABCDEFGHIJ"], some [1], some [(1, 0)], [(0, 1)], false⟩

/-! ### Claim theorems -/

/-- C10: constructing from a tabular source with no label column while
leaving the sample count at its automatic default `nsamples = -1` always
fails during construction: the median-based balancing step evaluates
`data.groupby(None)`, which raises, whatever the rows, the mapper, the
flags and the random draws are. -/
theorem auto_sampling_requires_label_column (rows : List Row) (rs : Bool)
    (mapper : Option LabelMap) (pick : Nat → Nat → Nat) :
    initDataset rows false (-1) rs mapper pick = Except.error groupbyNoneErr := by
  simp [initDataset]

/-- C1 (the claim fails on the code): `from_fastx` with no externally
supplied label map never succeeds.  With `label_column = None` and
`mapper = None`, line 94 evaluates `self.label_dict.items()` on `None`
and raises `AttributeError` before construction finishes, so no dataset
is produced at all — in particular not one of length 2 with `sequence`
fields; the 2-record instance of the claim is listed first. -/
theorem fromFastx_without_mapper_errors :
    from_fastx [⟨"id1", "MKV"⟩, ⟨"id2", "ACDE"⟩] none = Except.error noneItemsErr ∧
    ∀ records : List FastxRecord,
      from_fastx records none = Except.error noneItemsErr := by
  constructor
  · rfl
  · intro records
    simp [from_fastx, initDataset, effectiveMap]

/-- C7: item access at any index outside `[0, length)` fails with the
out-of-bounds `KeyError` of the Series range-index lookup instead of
returning a sample. -/
theorem getItem_out_of_bounds (d : Dataset) (tok : String → List Nat) (idx : Int)
    (h : idx < 0 ∨ (lenDataset d : Int) ≤ idx) :
    getItem d tok idx = Except.error idxKeyErr := by
  have h2 : idx < 0 ∨ (d.seqs.length : Int) ≤ idx := h
  simp [getItem, h2]

/-- C7 witness: on the dataset of length 1 built from `rowsOne`, access at
index 1 (the length) and at index -1 both fail with the out-of-bounds
error. -/
theorem getItem_out_of_bounds_witness :
    initDataset rowsOne true 0 false none (fun _ _ => 0) = Except.ok exDataOne ∧
    lenDataset exDataOne = 1 ∧
    getItem exDataOne tokLen 1 = Except.error idxKeyErr ∧
    getItem exDataOne tokLen (-1) = Except.error idxKeyErr :=
  ⟨by rfl, by rfl,
    getItem_out_of_bounds exDataOne tokLen 1 (by decide),
    getItem_out_of_bounds exDataOne tokLen (-1) (by decide)⟩

/-- C8: item access never caches encoded results: every in-bounds access
advances the tokenizer invocation counter by exactly one (so a second
access of the same index invokes the tokenizer afresh), and when the
tokenizer is deterministic (its output does not depend on the invocation
number) the two accesses return samples equal in value. -/
theorem getItem_tokenizes_fresh (d : Dataset) (tokAt : Nat → String → List Nat)
    (idx : Int) (c : Nat)
    (hin : ¬(idx < 0 ∨ (lenDataset d : Int) ≤ idx))
    (hdet : ∀ k k2 s, tokAt k s = tokAt k2 s) :
    (getItemFresh d tokAt idx c).2 = c + 1 ∧
    (getItemFresh d tokAt idx ((getItemFresh d tokAt idx c).2)).2 = c + 2 ∧
    (getItemFresh d tokAt idx ((getItemFresh d tokAt idx c).2)).1 =
      (getItemFresh d tokAt idx c).1 := by
  have hin2 : ¬(idx < 0 ∨ ((d.seqs.length : Int) ≤ idx)) := hin
  refine ⟨?_, ?_, ?_⟩
  · simp [getItemFresh, hin2]
  · simp [getItemFresh, hin2]
  · simp only [getItemFresh, if_neg hin2]
    have he : tokAt (c + 1) = tokAt c := funext (fun s => hdet (c + 1) c s)
    simp [he]

/-- C8 witness: two successive accesses of index 0 on the length-1 example
dataset invoke the deterministic tokenizer once each (counter 0 to 1 to 2)
and return equal samples. -/
theorem getItem_tokenizes_fresh_witness :
    (getItemFresh exDataOne tokLenAt 0 0).2 = 0 + 1 ∧
    (getItemFresh exDataOne tokLenAt 0 ((getItemFresh exDataOne tokLenAt 0 0).2)).2 = 0 + 2 ∧
    (getItemFresh exDataOne tokLenAt 0 ((getItemFresh exDataOne tokLenAt 0 0).2)).1 =
      (getItemFresh exDataOne tokLenAt 0 0).1 :=
  getItem_tokenizes_fresh exDataOne tokLenAt 0 0 (by decide) (fun _ _ _ => rfl)

/-- C2: with the sequence column present and no resampling, construction
retains exactly the rows whose sequence string has length at most 1024,
in order, and drops the rest; consequently a table whose every sequence
has length at most 1024 loses no rows to filtering. -/
theorem init_filters_long_sequences (rows : List Row) (labelCol : Bool)
    (rs : Bool) (mapper : Option LabelMap) (pick : Nat → Nat → Nat) (d : Dataset)
    (h : initDataset rows labelCol 0 rs mapper pick = Except.ok d) :
    d.seqs = (rows.filter (fun r => r.seq.length ≤ 1024)).map (fun r => r.seq) ∧
    ((∀ r ∈ rows, r.seq.length ≤ 1024) → lenDataset d = rows.length) := by
  obtain ⟨m, hm, hd⟩ := initDataset_ok_elim _ _ _ _ _ _ _ h
  subst hd
  constructor
  · simp [pipelineData_zero, filteredRows]
  · intro hall
    have hfix : filteredRows rows = rows := by
      unfold filteredRows
      rw [List.filter_eq_self.mpr]
      intro a ha
      simpa using hall a ha
    simp [lenDataset, pipelineData_zero, hfix]

/-- The 2000-character row is dropped by the length filter and the
10-character row is kept (proved through the length of the replicated
character list, avoiding a character-by-character evaluation). -/
theorem filteredRows_rowsC2 : filteredRows rowsC2 = [⟨"ABCDEFGHIJ", 1⟩] := by
  have hlen : longRow.seq.length = 2000 := by
    show (List.replicate 2000 'A').length = 2000
    rw [List.length_replicate]
  unfold filteredRows rowsC2
  rw [List.filter_cons, List.filter_cons]
  simp [hlen]
  decide

/-- Construction on the two-row 2000/10 table produces `exDataC2`. -/
theorem initDataset_rowsC2 :
    initDataset rowsC2 true 0 false none (fun _ _ => 0) = Except.ok exDataC2 := by
  have h1 : ¬((0 : Int) = -1 ∧ (true = false)) := by norm_num
  have h2 : ¬((0 : Int) = -1 ∧ filteredRows rowsC2 = []) := by norm_num
  have h3 : ¬((0 : Int) > 0 ∧ (true = false)) := by norm_num
  unfold initDataset
  rw [if_neg h1, if_neg h2, if_neg h3, pipelineData_zero, filteredRows_rowsC2]
  rfl

/-- C2 witness: the two-row table with sequence lengths 2000 and 10 yields
a dataset of length 1 holding exactly the short sequence. -/
theorem init_filters_long_sequences_witness :
    initDataset rowsC2 true 0 false none (fun _ _ => 0) = Except.ok exDataC2 ∧
    (exDataC2.seqs =
        (rowsC2.filter (fun r => r.seq.length ≤ 1024)).map (fun r => r.seq) ∧
      ((∀ r ∈ rowsC2, r.seq.length ≤ 1024) → lenDataset exDataC2 = rowsC2.length)) ∧
    lenDataset exDataC2 = 1 :=
  ⟨initDataset_rowsC2,
    init_filters_long_sequences rowsC2 true false none (fun _ _ => 0) exDataC2
      initDataset_rowsC2,
    by rfl⟩

/-- C3: with the automatic default `nsamples = -1`, construction resamples
every distinct label group of the filtered table, with replacement, to
exactly the (integer) median of the group sizes: for every label value
present in the filtered input, the constructed label list contains it
exactly `autoMedian` times, whatever the random draws are. -/
theorem auto_median_sampling_balances_groups (rows : List Row) (rs : Bool)
    (mapper : Option LabelMap) (pick : Nat → Nat → Nat) (d : Dataset)
    (h : initDataset rows true (-1) rs mapper pick = Except.ok d) :
    ∃ ls, d.labels = some ls ∧
      ∀ l ∈ (filteredRows rows).map (fun r => r.label),
        (ls.filter (fun x => x == l)).length = autoMedian (filteredRows rows) := by
  obtain ⟨m, hm, hd⟩ := initDataset_ok_elim _ _ _ _ _ _ _ h
  subst hd
  refine ⟨(pipelineData rows (-1) pick).map (fun r => r.label), by simp, ?_⟩
  intro l hl
  rw [pipelineData_neg_one, count_labels_map]
  exact countLabel_resample _ _ _ _ hl

/-- The {A: 2 rows, B: 6 rows} table of the median-sampling example. -/
def rowsC3 : List Row :=
  [⟨"AA", 0⟩, ⟨"AB", 0⟩, ⟨"BA", 1⟩, ⟨"BB", 1⟩, ⟨"BC", 1⟩, ⟨"BD", 1⟩,
   ⟨"BE", 1⟩, ⟨"BF", 1⟩]

/-- The dataset built from `rowsC3` by automatic median sampling with the
draw oracle `fun _ j => j`: each of the two groups ends up with 4 rows. -/
def exDataC3 : Dataset :=
  ⟨["AA", "AB", "AA", "AB", "BA", "BB", "BC", "BD"],
   some [0, 0, 0, 0, 1, 1, 1, 1], some [(0, 0), (1, 1)], [(0, 0), (1, 1)], false⟩

/-- C3 witness: on the {A: 2, B: 6} table the median is 4 and every label
occurs exactly 4 times in the constructed dataset. -/
theorem auto_median_sampling_balances_groups_witness :
    initDataset rowsC3 true (-1) false none (fun _ j => j) = Except.ok exDataC3 ∧
    autoMedian (filteredRows rowsC3) = 4 ∧
    (∃ ls, exDataC3.labels = some ls ∧
      ∀ l ∈ (filteredRows rowsC3).map (fun r => r.label),
        (ls.filter (fun x => x == l)).length = autoMedian (filteredRows rowsC3)) :=
  ⟨by rfl, by rfl,
    auto_median_sampling_balances_groups rowsC3 false none (fun _ j => j) exDataC3
      (by rfl)⟩

/-- C4: with an explicit positive sample count `n`, construction resamples
every distinct label group of the filtered table, with replacement, to
exactly `n` rows (each group only needs to be nonempty, which every group
of a distinct label value is): for every label value present in the
filtered input, the constructed label list contains it exactly `n.toNat`
times, whatever the random draws are. -/
theorem explicit_sampling_sets_group_sizes (rows : List Row) (rs : Bool)
    (mapper : Option LabelMap) (pick : Nat → Nat → Nat) (d : Dataset) (n : Int)
    (hn : 0 < n)
    (h : initDataset rows true n rs mapper pick = Except.ok d) :
    ∃ ls, d.labels = some ls ∧
      ∀ l ∈ (filteredRows rows).map (fun r => r.label),
        (ls.filter (fun x => x == l)).length = n.toNat := by
  obtain ⟨m, hm, hd⟩ := initDataset_ok_elim _ _ _ _ _ _ _ h
  subst hd
  refine ⟨(pipelineData rows n pick).map (fun r => r.label), by simp, ?_⟩
  intro l hl
  rw [pipelineData_pos _ _ _ hn, count_labels_map]
  exact countLabel_resample _ _ _ _ hl

/-- A table with one group of size 1 and one of size 2, for the explicit
sampling example. -/
def rowsC4 : List Row := [⟨"A", 0⟩, ⟨"B", 1⟩, ⟨"C", 1⟩]

/-- The dataset built from `rowsC4` with `nsamples = 3` and the draw
oracle `fun _ j => j`: both groups end up with 3 rows. -/
def exDataC4 : Dataset :=
  ⟨["A", "A", "A", "B", "C", "B"], some [0, 0, 0, 1, 1, 1],
   some [(0, 0), (1, 1)], [(0, 0), (1, 1)], false⟩

/-- C4 witness: with `sample-count = 3` on groups of sizes 1 and 2, every
label occurs exactly 3 times in the constructed dataset. -/
theorem explicit_sampling_sets_group_sizes_witness :
    initDataset rowsC4 true 3 false none (fun _ j => j) = Except.ok exDataC4 ∧
    (0 : Int) < 3 ∧
    (∃ ls, exDataC4.labels = some ls ∧
      ∀ l ∈ (filteredRows rowsC4).map (fun r => r.label),
        (ls.filter (fun x => x == l)).length = (3 : Int).toNat) :=
  ⟨by rfl, by decide,
    explicit_sampling_sets_group_sizes rowsC4 false none (fun _ j => j) exDataC4 3
      (by decide) (by rfl)⟩

/-- C5: with a label column and no external mapper, the constructed label
map pairs the distinct raw label values (each exactly once) with the
contiguous ids `0..k-1`, and `id2label` inverts it: looking up any label
value present in the stored data gives an id whose `id2label` entry is
that value again. -/
theorem label_map_bijection (rows : List Row) (ns : Int) (rs : Bool)
    (pick : Nat → Nat → Nat) (d : Dataset)
    (h : initDataset rows true ns rs none pick = Except.ok d) :
    ∃ ls m, d.labels = some ls ∧ d.labelDict = some m ∧
      m.map Prod.fst = sortedDistinct ls ∧ (m.map Prod.fst).Nodup ∧
      m.map Prod.snd = List.range m.length ∧
      ∀ v ∈ ls, ∃ i, List.lookup v m = some i ∧
        List.lookup i d.id2label = some v := by
  obtain ⟨m, hm, hd⟩ := initDataset_ok_elim _ _ _ _ _ _ _ h
  have hm2 : m =
      buildLabelDict ((pipelineData rows ns pick).map (fun r => r.label)) := by
    simpa [effectiveMap] using hm.symm
  subst hd
  subst hm2
  refine ⟨(pipelineData rows ns pick).map (fun r => r.label),
    buildLabelDict ((pipelineData rows ns pick).map (fun r => r.label)),
    by simp, by simp, ?_, ?_, ?_, ?_⟩
  · rw [buildLabelDict, assignIds_map_fst]
  · rw [buildLabelDict, assignIds_map_fst]
    exact nodup_sortedDistinct _
  · rw [buildLabelDict, assignIds_map_snd, assignIds_length,
      List.range_eq_range']
  · intro v hv
    have hvD := (mem_sortedDistinct _ v).mpr hv
    obtain ⟨j, _, hlk, hinv⟩ :=
      assignIds_roundtrip _ 0 (nodup_sortedDistinct _) v hvD
    exact ⟨j, hlk, hinv⟩

/-- A table whose raw labels are 9, 4, 9, for the label-map examples. -/
def rowsC5 : List Row := [⟨"A", 9⟩, ⟨"B", 4⟩, ⟨"C", 9⟩]

/-- The dataset built from `rowsC5`: distinct labels 4 and 9 get ids 0 and
1, and `id2label` inverts the map. -/
def exDataC5 : Dataset :=
  ⟨["A", "B", "C"], some [9, 4, 9], some [(4, 0), (9, 1)],
   [(0, 4), (1, 9)], false⟩

/-- C5 witness: on the labels 9, 4, 9 the constructed map is the bijection
4 to 0, 9 to 1 and the stated roundtrip holds. -/
theorem label_map_bijection_witness :
    initDataset rowsC5 true 0 false none (fun _ _ => 0) = Except.ok exDataC5 ∧
    (∃ ls m, exDataC5.labels = some ls ∧ exDataC5.labelDict = some m ∧
      m.map Prod.fst = sortedDistinct ls ∧ (m.map Prod.fst).Nodup ∧
      m.map Prod.snd = List.range m.length ∧
      ∀ v ∈ ls, ∃ i, List.lookup v m = some i ∧
        List.lookup i exDataC5.id2label = some v) :=
  ⟨by rfl,
    label_map_bijection rowsC5 0 false (fun _ _ => 0) exDataC5 (by rfl)⟩

/-- C9 (implicit): when the label map is built internally, ids follow the
ascending order of the distinct raw label values, because `numpy.unique`
returns them sorted: the key column of the map is sorted, and whenever
the data is nonempty, id 0 maps back (through `id2label`) to the smallest
raw label value present. -/
theorem label_ids_sorted_ascending (rows : List Row) (ns : Int) (rs : Bool)
    (pick : Nat → Nat → Nat) (d : Dataset)
    (h : initDataset rows true ns rs none pick = Except.ok d) :
    ∃ ls m, d.labels = some ls ∧ d.labelDict = some m ∧
      List.Sorted (fun a b => a ≤ b) (m.map Prod.fst) ∧
      (ls ≠ [] → ∃ v0, v0 ∈ ls ∧ (∀ v ∈ ls, v0 ≤ v) ∧
        List.lookup 0 d.id2label = some v0) := by
  obtain ⟨m, hm, hd⟩ := initDataset_ok_elim _ _ _ _ _ _ _ h
  have hm2 : m =
      buildLabelDict ((pipelineData rows ns pick).map (fun r => r.label)) := by
    simpa [effectiveMap] using hm.symm
  subst hd
  subst hm2
  refine ⟨(pipelineData rows ns pick).map (fun r => r.label),
    buildLabelDict ((pipelineData rows ns pick).map (fun r => r.label)),
    by simp, by simp, ?_, ?_⟩
  · rw [buildLabelDict, assignIds_map_fst]
    exact sorted_sortedDistinct _
  · intro hne
    rcases hD : sortedDistinct ((pipelineData rows ns pick).map (fun r => r.label))
        with _ | ⟨h0, rest⟩
    · obtain ⟨x, hx⟩ := List.exists_mem_of_ne_nil _ hne
      have : x ∈ sortedDistinct ((pipelineData rows ns pick).map (fun r => r.label)) :=
        (mem_sortedDistinct _ x).mpr hx
      rw [hD] at this
      simp at this
    · refine ⟨h0, ?_, ?_, ?_⟩
      · have hh : h0 ∈
            sortedDistinct ((pipelineData rows ns pick).map (fun r => r.label)) := by
          rw [hD]
          exact List.mem_cons_self _ _
        exact (mem_sortedDistinct _ h0).mp hh
      · intro v hv
        have hvD := (mem_sortedDistinct _ v).mpr hv
        rw [hD] at hvD
        have hsort := sorted_sortedDistinct
          ((pipelineData rows ns pick).map (fun r => r.label))
        rw [hD] at hsort
        rcases List.mem_cons.mp hvD with h1 | h1
        · rw [h1]
        · exact (List.sorted_cons.mp hsort).1 v h1
      · simp [buildLabelDict, hD, assignIds, invertDict, List.lookup]

/-- A table whose raw labels are 3 and 1, for the sorted-assignment
example. -/
def rowsC9 : List Row := [⟨"A", 3⟩, ⟨"B", 1⟩]

/-- The dataset built from `rowsC9`: the smaller label 1 gets id 0 even
though it appears second. -/
def exDataC9 : Dataset :=
  ⟨["A", "B"], some [3, 1], some [(1, 0), (3, 1)], [(0, 1), (1, 3)], false⟩

/-- C9 witness: on the labels 3, 1 the map keys are sorted and id 0 maps
back to the smallest label value 1. -/
theorem label_ids_sorted_ascending_witness :
    initDataset rowsC9 true 0 false none (fun _ _ => 0) = Except.ok exDataC9 ∧
    (∃ ls m, exDataC9.labels = some ls ∧ exDataC9.labelDict = some m ∧
      List.Sorted (fun a b => a ≤ b) (m.map Prod.fst) ∧
      (ls ≠ [] → ∃ v0, v0 ∈ ls ∧ (∀ v ∈ ls, v0 ≤ v) ∧
        List.lookup 0 exDataC9.id2label = some v0)) :=
  ⟨by rfl,
    label_ids_sorted_ascending rowsC9 0 false (fun _ _ => 0) exDataC9 (by rfl)⟩

theorem getItem_mk_none (seqs : List String) (ld : Option LabelMap)
    (inv : LabelMap) (rs : Bool) (tok : String → List Nat) (i : Nat)
    (hi : i < seqs.length) :
    getItem ⟨seqs, none, ld, inv, rs⟩ tok (i : Int) =
      Except.ok ⟨tok (seqs.getD i ""), none,
        if rs then some (seqs.getD i "") else none⟩ := by
  have hcond : ¬((i : Int) < 0 ∨ (seqs.length : Int) ≤ (i : Int)) := by
    omega
  simp [getItem, hcond]
  exact hi

theorem getItem_mk_some (seqs : List String) (ls : List Nat) (m : LabelMap)
    (inv : LabelMap) (rs : Bool) (tok : String → List Nat) (i : Nat) (v : Nat)
    (hi : i < seqs.length) (hls : i < ls.length)
    (hv : List.lookup (ls.getD i 0) m = some v) :
    getItem ⟨seqs, some ls, some m, inv, rs⟩ tok (i : Int) =
      Except.ok ⟨tok (seqs.getD i ""), some v,
        if rs then some (seqs.getD i "") else none⟩ := by
  have hcond : ¬((i : Int) < 0 ∨ (seqs.length : Int) ≤ (i : Int)) := by
    omega
  have h2 : ¬(seqs.length ≤ i) := Nat.not_le.mpr hi
  rw [List.getD_eq_getElem _ _ hls] at hv
  simp [getItem, hcond, h2, hls, hv]

/-- C6: on a constructed dataset, item access at an in-bounds index
returns the tokenizer encoding of the sequence stored at that index; the
sample carries a `label` field exactly when labels are present (which is
exactly when a label column was given), and that field is the label map
applied to the raw label stored at the index; the sample carries the raw
sequence under `sequence` exactly when the return-sequences flag is set. -/
theorem getItem_returns_encoding_label_sequence
    (rows : List Row) (labelCol : Bool) (ns : Int) (rs : Bool)
    (mapper : Option LabelMap) (pick : Nat → Nat → Nat)
    (tok : String → List Nat) (d : Dataset) (i : Nat)
    (h : initDataset rows labelCol ns rs mapper pick = Except.ok d)
    (hi : i < lenDataset d)
    (hlook : match d.labels, d.labelDict with
             | some ls, some m => (List.lookup (ls.getD i 0) m).isSome = true
             | _, _ => True) :
    ∃ s : Sample, getItem d tok (i : Int) = Except.ok s ∧
      s.encoding = tok (d.seqs.getD i "") ∧
      s.label = (match d.labels, d.labelDict with
                 | some ls, some m => List.lookup (ls.getD i 0) m
                 | _, _ => none) ∧
      (s.label.isSome = true ↔ d.labels.isSome = true) ∧
      (d.labels.isSome = true ↔ labelCol = true) ∧
      s.sequence = (if d.return_seqs then some (d.seqs.getD i "") else none) ∧
      d.return_seqs = rs := by
  obtain ⟨m, hm, hd⟩ := initDataset_ok_elim _ _ _ _ _ _ _ h
  subst hd
  cases labelCol with
  | false =>
      have hi2 : i < ((pipelineData rows ns pick).map (fun r => r.seq)).length := hi
      exact ⟨_, getItem_mk_none _ (some m) _ rs tok i hi2, rfl, by simp, by simp,
        by simp, rfl, rfl⟩
  | true =>
      have hi2 : i < ((pipelineData rows ns pick).map (fun r => r.seq)).length := hi
      have hls : i < ((pipelineData rows ns pick).map (fun r => r.label)).length := by
        simp only [List.length_map] at hi2 ⊢
        exact hi2
      have hlook2 : (List.lookup
          (((pipelineData rows ns pick).map (fun r => r.label)).getD i 0)
          m).isSome = true := hlook
      obtain ⟨v, hv⟩ := Option.isSome_iff_exists.mp hlook2
      exact ⟨_, getItem_mk_some _ _ m _ rs tok i v hi2 hls hv, rfl, hv.symm,
        by simp, by simp, rfl, rfl⟩

/-- A two-row labelled table for the item-access example. -/
def rowsC6 : List Row := [⟨"AC", 5⟩, ⟨"GG", 7⟩]

/-- The dataset built from `rowsC6` with the return-sequences flag set. -/
def exDataC6 : Dataset :=
  ⟨["AC", "GG"], some [5, 7], some [(5, 0), (7, 1)], [(0, 5), (1, 7)], true⟩

/-- C6 witness: item access at index 1 of the example dataset returns the
encoding of "GG", the mapped label of the raw label 7, and the raw
sequence "GG". -/
theorem getItem_returns_encoding_label_sequence_witness :
    initDataset rowsC6 true 0 true none (fun _ _ => 0) = Except.ok exDataC6 ∧
    (∃ s : Sample, getItem exDataC6 tokLen ((1 : Nat) : Int) = Except.ok s ∧
      s.encoding = tokLen (exDataC6.seqs.getD 1 "") ∧
      s.label = (match exDataC6.labels, exDataC6.labelDict with
                 | some ls, some m => List.lookup (ls.getD 1 0) m
                 | _, _ => none) ∧
      (s.label.isSome = true ↔ exDataC6.labels.isSome = true) ∧
      (exDataC6.labels.isSome = true ↔ true = true) ∧
      s.sequence = (if exDataC6.return_seqs then some (exDataC6.seqs.getD 1 "")
        else none) ∧
      exDataC6.return_seqs = true) :=
  ⟨by rfl,
    getItem_returns_encoding_label_sequence rowsC6 true 0 true none (fun _ _ => 0)
      tokLen exDataC6 1 (by rfl) (by decide)
      (show (List.lookup (([5, 7] : List Nat).getD 1 0)
        [(5, 0), (7, 1)]).isSome = true by decide)⟩

end CycDataset
